import Mathlib

/-!
Shallow embedding of `habitat/tasks/rearrange/actions/grip_actions.py`
(habitat-lab): the grasp state machine (`MagicGraspAction.step`), the
proximity selector (`MagicGraspAction._grasp`), the contact selector
(`SuctionGraspAction._grasp`) and the visual target acquisition
(`GazeGraspAction.determine_center_object`, `get_grasp_object_mask`,
`_grasp`).  Float arithmetic is modelled by exact rationals.
-/

namespace GripActions

/-- 3D vector with exact rational coordinates (model of the float vectors
in the source). -/
structure Vec3 where
  x : ℚ
  y : ℚ
  z : ℚ
deriving DecidableEq, Repr

/-- A graspable target: a free scene entity (integer object id,
`scene_obj_ids`) or a marker (string name, `get_all_markers` keys). -/
inductive Target
  | obj (id : ℤ)
  | marker (name : String)
deriving DecidableEq, Repr

/-- Grasp-manager state owned by `cur_grasp_mgr`: either nothing is
attached, or exactly one target is attached. -/
inductive GraspState
  | unattached
  | attached (t : Target)
deriving DecidableEq, Repr

/-- `cur_grasp_mgr.is_grasped`. -/
def GraspState.is_grasped : GraspState → Bool
  | .unattached => false
  | .attached _ => true

/-- Mutating collaborator calls made during a step.  `snap` abstracts the
snap call issued by `MagicGraspAction._grasp` (snap_to_obj or
open_gripper+snap_to_marker, depending on the target kind);
`snapToObj`/`snapToMarker`/`openGripper` are the concrete variants used by
the suction and gaze embeddings. -/
inductive Call
  | snap (t : Target)
  | snapToObj (id : ℤ) (relPos : Vec3) (keepT : Vec3)
  | snapToMarker (name : String)
  | openGripper
  | desnap
deriving DecidableEq, Repr

/-- One call of `MagicGraspAction.step` (grip_actions.py lines 85-92).
`grip` is the scalar grip command (`None` maps to `none`).  `sel` is the
outcome the grasp selector `_grasp` would commit on this step (an input:
it depends on scene contents and physics, which are external to the state
machine).  Mirrors the source:

    if grip_action is None: return
    if grip_action >= 0 and not self.cur_grasp_mgr.is_grasped: self._grasp()
    elif grip_action < 0 and self.cur_grasp_mgr.is_grasped: self._ungrasp()

`_grasp` attaches `sel` when it finds a candidate; `_ungrasp` calls
`desnap`.  Returns the new state and the mutating collaborator calls. -/
def stepSM (sel : Option Target) (grip : Option ℚ) (s : GraspState) :
    GraspState × List Call :=
  match grip with
  | none => (s, [])
  | some v =>
    if 0 ≤ v ∧ s.is_grasped = false then
      match sel with
      | some t => (.attached t, [Call.snap t])
      | none => (s, [])
    else if v < 0 ∧ s.is_grasped = true then
      (.unattached, [Call.desnap])
    else (s, [])

/-- States reached after each step of a command sequence. -/
def runSM (s : GraspState) :
    List (Option Target × Option ℚ) → List GraspState
  | [] => []
  | (sel, g) :: rest =>
    let s' := (stepSM sel g s).1
    s' :: runSM s' rest

/-- Full state trace: initial state followed by the state after each
step. -/
def traceSM (s0 : GraspState)
    (inputs : List (Option Target × Option ℚ)) : List GraspState :=
  s0 :: runSM s0 inputs

/-- Single-step reachability: from `attached t` a step can only stay at
`attached t` or go to `unattached`. -/
def stepR : GraspState → GraspState → Prop
  | .attached t, s' => s' = .attached t ∨ s' = .unattached
  | .unattached, _ => True

lemma stepSM_stepR (sel : Option Target) (g : Option ℚ) (s : GraspState) :
    stepR s (stepSM sel g s).1 := by
  cases s with
  | unattached => trivial
  | attached t =>
    cases g with
    | none => exact Or.inl rfl
    | some v =>
      show stepR (.attached t) (stepSM sel (some v) (.attached t)).1
      unfold stepSM
      simp only [GraspState.is_grasped]
      split
      · next h => exact absurd h.2 (by simp)
      · split
        · exact Or.inr rfl
        · exact Or.inl rfl

lemma traceSM_chain (inputs : List (Option Target × Option ℚ)) :
    ∀ s0 : GraspState, List.Chain' stepR (traceSM s0 inputs) := by
  induction inputs with
  | nil =>
    intro s0
    simp [traceSM, runSM]
  | cons p rest ih =>
    intro s0
    obtain ⟨sel, g⟩ := p
    have h2 := ih ((stepSM sel g s0).1)
    have he : traceSM s0 ((sel, g) :: rest) =
        s0 :: ((stepSM sel g s0).1 :: runSM ((stepSM sel g s0).1) rest) := rfl
    rw [he]
    rw [List.chain'_cons]
    exact ⟨stepSM_stepR sel g s0, h2⟩

lemma chain_attached_const :
    ∀ (l2 : List GraspState) (t : Target) (s : GraspState)
      (rest : List GraspState),
      List.Chain' stepR (.attached t :: (l2 ++ s :: rest)) →
      GraspState.unattached ∉ l2 →
      s = .attached t ∨ s = .unattached := by
  intro l2
  induction l2 with
  | nil =>
    intro t s rest hch _
    rw [List.nil_append, List.chain'_cons] at hch
    exact hch.1
  | cons a l2 ih =>
    intro t s rest hch hnin
    rw [List.cons_append, List.chain'_cons] at hch
    have ha : a = .attached t ∨ a = .unattached := hch.1
    have hane : a ≠ .unattached := by
      intro h
      exact hnin (h ▸ List.mem_cons_self a l2)
    rcases ha with ha | ha
    · subst ha
      exact ih t s rest hch.2 (fun h => hnin (List.mem_cons_of_mem _ h))
    · exact absurd ha hane

/-- C1: at most one attachment.  (i) In any state trace generated by
`step`, two attachments to different targets are always separated by an
`unattached` state.  (ii) A grasp command (value ≥ 0) issued while already
attached is a no-op: the state is unchanged and no selector result is
committed, because attachment is attempted only when `is_grasped` is
false. -/
theorem step_at_most_one_attachment :
    (∀ (s0 : GraspState) (inputs : List (Option Target × Option ℚ))
       (l1 l2 l3 : List GraspState) (t t' : Target),
       traceSM s0 inputs =
         l1 ++ .attached t :: (l2 ++ .attached t' :: l3) →
       t ≠ t' → GraspState.unattached ∈ l2)
    ∧ (∀ (sel : Option Target) (v : ℚ) (t : Target), 0 ≤ v →
       stepSM sel (some v) (.attached t) = (.attached t, [])) := by
  constructor
  · intro s0 inputs l1 l2 l3 t t' hdec hne
    by_contra hnin
    have hch := traceSM_chain inputs s0
    rw [hdec] at hch
    have hch2 : List.Chain' stepR
        (GraspState.attached t :: (l2 ++ .attached t' :: l3)) :=
      ((List.chain'_append).1 hch).2.1
    rcases chain_attached_const l2 t (.attached t') l3 hch2 hnin with h | h
    · exact hne (by injection h with h; exact h.symm) |>.elim
    · exact GraspState.noConfusion h
  · intro sel v t hv
    unfold stepSM
    simp only [GraspState.is_grasped]
    split
    · next h => exact absurd h.2 (by simp)
    · split
      · next h => exact absurd hv (not_le.2 h.1)
      · rfl

/-- Witness for `step_at_most_one_attachment` at a concrete run: the trace
`[unattached, attached (obj 1), unattached, attached (obj 2)]` puts the
intervening `unattached` in the middle segment, and re-issuing grasp while
attached is a no-op. -/
theorem step_at_most_one_attachment_witness :
    GraspState.unattached ∈ [GraspState.unattached]
    ∧ stepSM none (some 0) (.attached (.obj 1)) =
        (.attached (.obj 1), []) :=
  ⟨step_at_most_one_attachment.1 .unattached
      [(some (.obj 1), some 1), (none, some (-1)), (some (.obj 2), some 1)]
      [.unattached] [.unattached] [] (.obj 1) (.obj 2)
      (by decide) (by decide),
   step_at_most_one_attachment.2 none 0 (.obj 1) (by norm_num)⟩

/-- C9: release is unconditional and safe when unattached.  Issuing a
release command (value < 0) while `unattached` is a no-op that leaves the
state unchanged and makes no collaborator call (`desnap` is not invoked),
and a `None`/absent grip command is a no-op in either state. -/
theorem step_release_noop :
    (∀ (sel : Option Target) (v : ℚ), v < 0 →
       stepSM sel (some v) .unattached = (.unattached, []))
    ∧ (∀ (sel : Option Target) (s : GraspState),
       stepSM sel none s = (s, [])) := by
  constructor
  · intro sel v hv
    unfold stepSM
    simp only [GraspState.is_grasped]
    split
    · next h => exact absurd h.1 (not_le.2 hv)
    · split
      · next h => exact absurd h.2 (by simp)
      · rfl
  · intro sel s
    rfl

/-- Witness for `step_release_noop`: release at command value -1 while
unattached does nothing and emits no call. -/
theorem step_release_noop_witness :
    stepSM (some (.obj 3)) (some (-1)) .unattached = (.unattached, [])
    ∧ stepSM none none .unattached = (.unattached, []) :=
  ⟨step_release_noop.1 (some (.obj 3)) (-1) (by norm_num),
   step_release_noop.2 none .unattached⟩

/-- `np.argmin` over a list of rationals: index of the first occurrence of
the minimum (numpy returns the first minimal index). -/
def np_argmin : List ℚ → ℕ
  | [] => 0
  | [_] => 0
  | x :: y :: xs =>
    if (y :: xs).getD (np_argmin (y :: xs)) 0 < x then
      np_argmin (y :: xs) + 1
    else 0
termination_by structural l => l

lemma np_argmin_lt_length : ∀ l : List ℚ, l ≠ [] → np_argmin l < l.length := by
  intro l
  induction l with
  | nil => intro h; exact absurd rfl h
  | cons x l ih =>
    intro _
    cases l with
    | nil => simp [np_argmin]
    | cons y xs =>
      rw [np_argmin]
      split
      · have := ih (by simp)
        simpa [List.length_cons] using Nat.succ_lt_succ this
      · simp

lemma np_argmin_le : ∀ (l : List ℚ) (j : ℕ), j < l.length →
    l.getD (np_argmin l) 0 ≤ l.getD j 0 := by
  intro l
  induction l with
  | nil => intro j hj; simp at hj
  | cons x l ih =>
    intro j hj
    cases l with
    | nil =>
      have hj0 : j = 0 := by
        simp only [List.length_cons, List.length_nil] at hj
        omega
      subst hj0
      simp [np_argmin]
    | cons y xs =>
      rw [np_argmin]
      split
      · next hlt =>
        rw [List.getD_cons_succ]
        cases j with
        | zero =>
          rw [List.getD_cons_zero]
          exact le_of_lt hlt
        | succ j' =>
          rw [List.getD_cons_succ]
          exact ih j' (Nat.lt_of_succ_lt_succ hj)
      · next hge =>
        rw [List.getD_cons_zero]
        cases j with
        | zero => rw [List.getD_cons_zero]
        | succ j' =>
          rw [List.getD_cons_succ]
          exact le_trans (not_lt.1 hge) (ih j' (Nat.lt_of_succ_lt_succ hj))

lemma np_argmin_first : ∀ (l : List ℚ) (j : ℕ), j < np_argmin l →
    l.getD (np_argmin l) 0 < l.getD j 0 := by
  intro l
  induction l with
  | nil => intro j hj; simp [np_argmin] at hj
  | cons x l ih =>
    intro j hj
    cases l with
    | nil => simp [np_argmin] at hj
    | cons y xs =>
      rw [np_argmin] at hj ⊢
      split
      · next hlt =>
        rw [List.getD_cons_succ]
        cases j with
        | zero => rw [List.getD_cons_zero]; exact hlt
        | succ j' =>
          rw [List.getD_cons_succ]
          rw [if_pos hlt] at hj
          exact ih j' (Nat.lt_of_succ_lt_succ hj)
      · next hge =>
        rw [if_neg hge] at hj
        simp at hj

/-- `MagicGraspAction._grasp` (grip_actions.py lines 41-80) with the
`np.linalg.norm` distances abstracted as inputs: `objDists[i]` is
`‖scene_obj_pos[i] − ee_pos‖` and `markerDists[i]` the distance to the
i-th marker.  Object pass first; it snaps (and returns) only when the
closest object is strictly under `grasp_thresh_dist`; otherwise control
falls through to the marker pass with the same structure.  Returns the
snapped index: `.inl` for a scene object, `.inr` for a marker. -/
def magic_grasp (objDists markerDists : List ℚ) (thresh : ℚ) :
    Option (ℕ ⊕ ℕ) :=
  let objPass : Option ℕ :=
    if objDists.length ≠ 0 then
      let closest_obj_idx := np_argmin objDists
      let to_target := objDists.getD closest_obj_idx 0
      if to_target < thresh then some closest_obj_idx else none
    else none
  match objPass with
  | some i => some (.inl i)
  | none =>
    if markerDists.length ≠ 0 then
      let closest_idx := np_argmin markerDists
      let to_target := markerDists.getD closest_idx 0
      if to_target < thresh then some (.inr closest_idx) else none
    else none

/-- C3: the proximity threshold gate is strict, in both passes.  A scene
object is snapped only when it is the argmin of the object distances and
its distance is strictly less than the threshold, and a marker is
snapped only when it is the argmin of the marker distances and its
distance is strictly less than the threshold; with threshold 1/10, a
sole candidate (object or marker) at distance exactly 1/10 yields no
selection, while one at 999/10000 (0.0999) is selected. -/
theorem magic_threshold_strict :
    (∀ (objDists markerDists : List ℚ) (t : ℚ) (i : ℕ),
       magic_grasp objDists markerDists t = some (.inl i) →
       i = np_argmin objDists ∧ objDists.getD i 0 < t)
    ∧ (∀ (objDists markerDists : List ℚ) (t : ℚ) (i : ℕ),
       magic_grasp objDists markerDists t = some (.inr i) →
       i = np_argmin markerDists ∧ markerDists.getD i 0 < t)
    ∧ magic_grasp [1/10] [] (1/10) = none
    ∧ magic_grasp [999/10000] [] (1/10) = some (.inl 0)
    ∧ magic_grasp [] [1/10] (1/10) = none
    ∧ magic_grasp [] [999/10000] (1/10) = some (.inr 0) := by
  refine ⟨?_, ?_, by norm_num [magic_grasp, np_argmin],
    by norm_num [magic_grasp, np_argmin],
    by norm_num [magic_grasp, np_argmin],
    by norm_num [magic_grasp, np_argmin]⟩
  · intro objDists markerDists t i h
    unfold magic_grasp at h
    simp only at h
    split at h
    · next j hne =>
      have hji : j = i := by simpa using h
      subst hji
      split at hne
      · split at hne
        · next hlt =>
          have hq : np_argmin objDists = j := by simpa using hne
          exact ⟨hq.symm, hq ▸ hlt⟩
        · simp at hne
      · simp at hne
    · split at h
      · split at h
        · simp at h
        · simp at h
      · simp at h
  · intro objDists markerDists t i h
    unfold magic_grasp at h
    simp only at h
    split at h
    · next j hne => simp at h
    · split at h
      · split at h
        · next hlt =>
          have hq : np_argmin markerDists = i := by simpa using h
          exact ⟨hq.symm, hq ▸ hlt⟩
        · simp at h
      · simp at h

/-- Witness for `magic_threshold_strict`: the concrete runs
`magic_grasp [3/10, 1/20] [] (1/10) = some (.inl 1)` and
`magic_grasp [] [1/2, 1/5, 1/20] (1/10) = some (.inr 2)` instantiate both
general parts. -/
theorem magic_threshold_strict_witness :
    ((1 : ℕ) = np_argmin [3/10, 1/20]
      ∧ ([3/10, 1/20] : List ℚ).getD 1 0 < 1/10)
    ∧ ((2 : ℕ) = np_argmin [1/2, 1/5, 1/20]
      ∧ ([1/2, 1/5, 1/20] : List ℚ).getD 2 0 < 1/10) :=
  ⟨magic_threshold_strict.1 [3/10, 1/20] [] (1/10) 1
     (by norm_num [magic_grasp, np_argmin]),
   magic_threshold_strict.2.1 [] [1/2, 1/5, 1/20] (1/10) 2
     (by norm_num [magic_grasp, np_argmin])⟩

/-- C8: argmin determinism.  The selected index always holds a minimal
distance, every strictly earlier index holds a strictly larger distance
(ties are broken by the lowest index), and on distances
`[3/10, 1/10, 1/10]` the selector picks index 1, the first minimum. -/
theorem argmin_first_minimum :
    (∀ (l : List ℚ), l ≠ [] → np_argmin l < l.length)
    ∧ (∀ (l : List ℚ) (j : ℕ), j < l.length →
        l.getD (np_argmin l) 0 ≤ l.getD j 0)
    ∧ (∀ (l : List ℚ) (j : ℕ), j < np_argmin l →
        l.getD (np_argmin l) 0 < l.getD j 0)
    ∧ magic_grasp [3/10, 1/10, 1/10] [] 1 = some (.inl 1) :=
  ⟨np_argmin_lt_length, np_argmin_le, np_argmin_first,
   by norm_num [magic_grasp, np_argmin]⟩

/-- Witness for `argmin_first_minimum` at the concrete distance list
`[3/10, 1/10, 1/10]`. -/
theorem argmin_first_minimum_witness :
    np_argmin [3/10, 1/10, 1/10] < 3
    ∧ ([3/10, 1/10, 1/10] : List ℚ).getD (np_argmin [3/10, 1/10, 1/10]) 0 ≤
        ([3/10, 1/10, 1/10] : List ℚ).getD 0 0
    ∧ ([3/10, 1/10, 1/10] : List ℚ).getD (np_argmin [3/10, 1/10, 1/10]) 0 <
        ([3/10, 1/10, 1/10] : List ℚ).getD 0 0 :=
  ⟨argmin_first_minimum.1 [3/10, 1/10, 1/10] (by simp),
   argmin_first_minimum.2.1 [3/10, 1/10, 1/10] 0 (by simp),
   argmin_first_minimum.2.2.1 [3/10, 1/10, 1/10] 0 (by norm_num [np_argmin])⟩

/-- Modelled from the spec: a physics contact is "a pair of participant
identifiers (entity id, link id) plus contact position"
(`get_physics_contact_points`; the contact position plays no role in
selection and is omitted). -/
structure Contact where
  objIdA : ℤ
  linkIdA : ℤ
  objIdB : ℤ
  linkIdB : ℤ
deriving DecidableEq, Repr

/-- Modelled from the spec: `coll_name_matches(c, id)`
(habitat.tasks.rearrange.utils, not under src/) tests whether either
participant of the contact has entity id `id`. -/
def coll_name_matches (c : Contact) (id : ℤ) : Bool :=
  c.objIdA = id || c.objIdB = id

/-- Modelled from the spec: `coll_link_name_matches(c, l)`
(habitat.tasks.rearrange.utils, not under src/) tests whether either
participant of the contact has link id `l`. -/
def coll_link_name_matches (c : Contact) (l : ℤ) : Bool :=
  c.linkIdA = l || c.linkIdB = l

/-- A marker as consumed by `SuctionGraspAction._grasp`: name,
`ao_parent.object_id` and `link_id`. -/
structure Marker where
  name : String
  parentId : ℤ
  linkId : ℤ
deriving DecidableEq, Repr

/-- Does any robot contact involve the marker's parent entity on the
marker's link (the `has_match` test of the marker loop)? -/
def marker_matches (robot_contacts : List Contact) (m : Marker) : Bool :=
  robot_contacts.any fun c =>
    coll_name_matches c m.parentId && coll_link_name_matches c m.linkId

/-- Target selection of `SuctionGraspAction._grasp` (grip_actions.py lines
101-163).  Filter contacts to those involving the robot on a gripper
link; if none, select nothing.  Otherwise scan `scene_obj_ids` and take
the first id appearing in a filtered contact (the source's inner loop
sets `match_coll` and breaks, then the outer loop breaks).  If no object
matched, the marker loop assigns `attempt_snap_entity` on every match
without breaking, so the last matching marker survives.  Returns `.inl`
for a scene object id, `.inr` for a marker name. -/
def suction_select (contacts : List Contact) (robot_id : ℤ)
    (gripper_links : List ℤ) (scene_obj_ids : List ℤ)
    (markers : List Marker) : Option (ℤ ⊕ String) :=
  let robot_contacts := contacts.filter fun c =>
    coll_name_matches c robot_id &&
      gripper_links.any fun l => coll_link_name_matches c l
  if robot_contacts.length = 0 then none
  else
    match scene_obj_ids.find?
        (fun oid => robot_contacts.any fun c => coll_name_matches c oid) with
    | some oid => some (.inl oid)
    | none =>
      let attempt : Option String := markers.foldl
        (fun acc m => if marker_matches robot_contacts m then some m.name
                      else acc) none
      attempt.map .inr

/-- The four-step reference algorithm as the spec words it, except for the
marker step, where the claim's "first marker" is amended to "last marker":
1. filter to robot-gripper contacts, if empty select nothing; 2. first
candidate scene entity appearing in a filtered contact; 3. otherwise the
last candidate marker whose parent-entity-plus-link pair appears in a
filtered contact; 4. otherwise nothing. -/
def suction_select_ref (contacts : List Contact) (robot_id : ℤ)
    (gripper_links : List ℤ) (scene_obj_ids : List ℤ)
    (markers : List Marker) : Option (ℤ ⊕ String) :=
  let robot_contacts := contacts.filter fun c =>
    coll_name_matches c robot_id &&
      gripper_links.any fun l => coll_link_name_matches c l
  if robot_contacts = [] then none
  else
    match scene_obj_ids.find?
        (fun oid => robot_contacts.any fun c => coll_name_matches c oid) with
    | some oid => some (.inl oid)
    | none =>
      match (markers.reverse.find? (marker_matches robot_contacts)) with
      | some m => some (.inr m.name)
      | none => none

lemma foldl_last_match (p : Marker → Bool) :
    ∀ (l : List Marker) (acc : Option String),
      l.foldl (fun acc m => if p m then some m.name else acc) acc =
        match l.reverse.find? p with
        | some m => some m.name
        | none => acc := by
  intro l
  induction l with
  | nil => intro acc; rfl
  | cons a l ih =>
    intro acc
    rw [List.foldl_cons, ih, List.reverse_cons, List.find?_append]
    cases hfind : l.reverse.find? p with
    | some m => simp [hfind, Option.orElse]
    | none =>
      cases hp : p a with
      | true => simp [hfind, hp, List.find?, Option.orElse]
      | false => simp [hfind, hp, List.find?, Option.orElse]

/-- C2 counterexample: with one robot-gripper contact that matches the
parent-entity-plus-link pair of both markers and no matching scene
entity, the code returns the LAST matching marker "m2" while the claimed
four-step reference (first matching marker) returns "m1". -/
theorem suction_first_marker_counterexample :
    suction_select [⟨100, 5, 7, 2⟩] 100 [5] []
        [⟨"m1", 7, 2⟩, ⟨"m2", 7, 2⟩] = some (.inr "m2")
    ∧ ([(⟨"m1", 7, 2⟩ : Marker), ⟨"m2", 7, 2⟩].find?
        (marker_matches [⟨100, 5, 7, 2⟩])).map
          (fun m => (Sum.inr m.name : ℤ ⊕ String))
        = some (.inr "m1") := by
  constructor <;> decide

/-- C2 (amended): the contact-based selector equals the four-step
reference algorithm with the marker step taking the LAST matching marker:
empty robot-gripper contact list selects nothing (distances are never
consulted); otherwise the first candidate scene entity appearing in a
filtered contact; otherwise the last candidate marker whose
parent-entity-plus-link pair appears in a filtered contact; otherwise
nothing. -/
theorem suction_select_matches_ref :
    ∀ (contacts : List Contact) (robot_id : ℤ) (gripper_links : List ℤ)
      (scene_obj_ids : List ℤ) (markers : List Marker),
      suction_select contacts robot_id gripper_links scene_obj_ids markers =
        suction_select_ref contacts robot_id gripper_links scene_obj_ids
          markers := by
  intro contacts robot_id gripper_links scene_obj_ids markers
  unfold suction_select suction_select_ref
  simp only [List.length_eq_zero]
  split
  · rfl
  · split
    · rfl
    · rw [foldl_last_match]
      cases h : (List.reverse markers).find? (marker_matches _) <;>
        simp [h, Option.map]

/-- Per-candidate data consumed by
`GazeGraspAction.determine_center_object` (grip_actions.py lines
420-465), with the external renders abstracted: `dist` is
`np.linalg.norm(obj_pos - cam_pos)` and `(rectX, rectY, rectW, rectH)` is
`cv2.boundingRect` of the denoised mask the render pipeline would produce
for this candidate. -/
structure GazeCandidate where
  dist : ℚ
  rectX : ℕ
  rectY : ℕ
  rectW : ℕ
  rectH : ℕ
deriving DecidableEq, Repr

/-- The center-pixel containment test of `determine_center_object` (lines
456-461): `x <= width // 2 and width // 2 <= x + w and y <= height // 2
and height // 2 <= y + h` (Python `//` is `Nat` division here). -/
def center_cond (x y w h width height : ℕ) : Bool :=
  decide (x ≤ width / 2) && decide (width / 2 ≤ x + w) &&
    decide (y ≤ height / 2) && decide (height / 2 ≤ y + h)

/-- `determine_center_object`: scan candidates in order; skip (continue)
when the distance is below `min_dist` or above `max_dist`; otherwise
compute the candidate's mask (a render round-trip) and return the
candidate when the center pixel falls in the mask's bounding rectangle.
Returns the index of the returned candidate (if any) together with the
indices of all candidates whose mask was computed (i.e. that were
rendered), in scan order. -/
def determine_center_object (minDist maxDist : ℚ) (width height : ℕ) :
    List GazeCandidate → Option ℕ × List ℕ
  | [] => (none, [])
  | c :: cs =>
    if c.dist < minDist || maxDist < c.dist then
      let r := determine_center_object minDist maxDist width height cs
      (r.1.map (· + 1), r.2.map (· + 1))
    else
      if center_cond c.rectX c.rectY c.rectW c.rectH width height then
        (some 0, [0])
      else
        let r := determine_center_object minDist maxDist width height cs
        (r.1.map (· + 1), 0 :: r.2.map (· + 1))

/-- The acceptance test as the spec words it: the candidate is in the
distance band and the image's center pixel `(width/2, height/2)` falls
within the mask's bounding rectangle, inclusive on all four edges. -/
def gaze_accepted (minDist maxDist : ℚ) (width height : ℕ)
    (c : GazeCandidate) : Bool :=
  decide (minDist ≤ c.dist) && decide (c.dist ≤ maxDist) &&
    center_cond c.rectX c.rectY c.rectW c.rectH width height

/-- The first accepted candidate in scan order, per the spec's step 8. -/
def first_accepted (minDist maxDist : ℚ) (width height : ℕ) :
    List GazeCandidate → Option ℕ
  | [] => none
  | c :: cs =>
    if gaze_accepted minDist maxDist width height c then some 0
    else (first_accepted minDist maxDist width height cs).map (· + 1)

lemma determine_eq_first_accepted (minDist maxDist : ℚ) (width height : ℕ) :
    ∀ cs : List GazeCandidate,
      (determine_center_object minDist maxDist width height cs).1 =
        first_accepted minDist maxDist width height cs := by
  intro cs
  induction cs with
  | nil => rfl
  | cons c cs ih =>
    rw [determine_center_object, first_accepted]
    by_cases hgate : c.dist < minDist || maxDist < c.dist
    · rw [if_pos hgate]
      have hacc : gaze_accepted minDist maxDist width height c = false := by
        simp only [Bool.or_eq_true, decide_eq_true_eq] at hgate
        rcases hgate with hlt | hgt
        · simp [gaze_accepted, not_le.2 hlt]
        · simp [gaze_accepted, not_le.2 hgt]
      rw [hacc, if_neg (by simp)]
      exact congrArg (Option.map fun x => x + 1) ih
    · rw [if_neg hgate]
      simp only [Bool.or_eq_true, decide_eq_true_eq, not_or, not_lt] at hgate
      by_cases hc : center_cond c.rectX c.rectY c.rectW c.rectH width height
      · have hacc : gaze_accepted minDist maxDist width height c = true := by
          simp [gaze_accepted, hgate.1, hgate.2, hc]
        rw [if_pos hc, hacc, if_pos rfl]
      · have hacc : gaze_accepted minDist maxDist width height c = false := by
          simp [gaze_accepted, hc]
        rw [if_neg hc, hacc, if_neg (by simp)]
        exact congrArg (Option.map fun x => x + 1) ih

/-- C4: visual centering acceptance.  The containment test holds exactly
when the center pixel `(width/2, height/2)` lies in the bounding
rectangle inclusively on all four edges; the rectangle `(10,10,5,5)` on a
20×20 image accepts while `(0,0,5,5)` rejects; and the scan returns the
first accepted candidate in scan order (scanning stops there). -/
theorem gaze_center_acceptance :
    (∀ x y w h width height : ℕ,
       center_cond x y w h width height = true ↔
         (x ≤ width / 2 ∧ width / 2 ≤ x + w ∧
          y ≤ height / 2 ∧ height / 2 ≤ y + h))
    ∧ center_cond 10 10 5 5 20 20 = true
    ∧ center_cond 0 0 5 5 20 20 = false
    ∧ (∀ (minDist maxDist : ℚ) (width height : ℕ)
         (cs : List GazeCandidate),
         (determine_center_object minDist maxDist width height cs).1 =
           first_accepted minDist maxDist width height cs) := by
  refine ⟨?_, by decide, by decide, determine_eq_first_accepted⟩
  intro x y w h width height
  simp [center_cond, and_assoc]

/-- C7 part (a): a candidate whose distance falls outside
`[min_dist, max_dist]` is skipped: it is neither returned nor rendered
(its mask is never computed). -/
lemma gaze_gate_skips (minDist maxDist : ℚ) (width height : ℕ) :
    ∀ (cs : List GazeCandidate) (i : ℕ) (hi : i < cs.length),
      ((cs.get ⟨i, hi⟩).dist < minDist ∨ maxDist < (cs.get ⟨i, hi⟩).dist) →
      (determine_center_object minDist maxDist width height cs).1 ≠ some i
      ∧ i ∉ (determine_center_object minDist maxDist width height cs).2 := by
  intro cs
  induction cs with
  | nil => intro i hi; simp at hi
  | cons c cs ih =>
    intro i hi hout
    rw [determine_center_object]
    cases i with
    | zero =>
      simp only [List.get] at hout
      have hgate : (c.dist < minDist || maxDist < c.dist) = true := by
        rcases hout with h | h <;> simp [h]
      rw [if_pos hgate]
      constructor
      · intro h
        rcases Option.map_eq_some'.1 h with ⟨j, _, hj⟩
        exact Nat.succ_ne_zero j hj
      · intro h
        rcases List.mem_map.1 h with ⟨j, _, hj⟩
        exact Nat.succ_ne_zero j hj
    | succ i' =>
      simp only [List.get] at hout
      have hi' : i' < cs.length := Nat.lt_of_succ_lt_succ hi
      have IH := ih i' hi' hout
      by_cases hgate : (c.dist < minDist || maxDist < c.dist) = true
      · rw [if_pos hgate]
        constructor
        · intro h
          rcases Option.map_eq_some'.1 h with ⟨j, hj1, hj2⟩
          exact IH.1 (by rw [hj1]; exact congrArg some (Nat.succ_injective hj2).symm ▸ rfl)
        · intro h
          rcases List.mem_map.1 h with ⟨j, hj1, hj2⟩
          exact IH.2 ((Nat.succ_injective hj2) ▸ hj1)
      · rw [if_neg hgate]
        by_cases hc : center_cond c.rectX c.rectY c.rectW c.rectH width height
        · rw [if_pos hc]
          constructor
          · simp
          · simp
        · rw [if_neg hc]
          constructor
          · intro h
            rcases Option.map_eq_some'.1 h with ⟨j, hj1, hj2⟩
            exact IH.1 (by rw [hj1, Nat.succ_injective hj2])
          · intro h
            rcases List.mem_cons.1 h with h | h
            · exact Nat.succ_ne_zero i' h
            · rcases List.mem_map.1 h with ⟨j, hj1, hj2⟩
              exact IH.2 ((Nat.succ_injective hj2) ▸ hj1)

/-- C7: the distance gate is strict on both sides.  A candidate at
distance outside `[min_dist, max_dist]` is skipped and its mask is never
computed (never rendered); a candidate at distance exactly `min_dist` or
exactly `max_dist` passes the gate (the source compares with `<` and `>`)
and is rendered. -/
theorem gaze_distance_gate :
    (∀ (minDist maxDist : ℚ) (width height : ℕ)
       (cs : List GazeCandidate) (i : ℕ) (hi : i < cs.length),
       ((cs.get ⟨i, hi⟩).dist < minDist ∨ maxDist < (cs.get ⟨i, hi⟩).dist) →
       (determine_center_object minDist maxDist width height cs).1 ≠ some i
       ∧ i ∉ (determine_center_object minDist maxDist width height cs).2)
    ∧ determine_center_object 1 2 20 20 [⟨1, 10, 10, 5, 5⟩] = (some 0, [0])
    ∧ determine_center_object 1 2 20 20 [⟨2, 10, 10, 5, 5⟩] = (some 0, [0]) :=
  ⟨gaze_gate_skips, by decide, by decide⟩

/-- Witness for `gaze_distance_gate`: a sole candidate at distance 5 with
gate `[1, 2]` is neither returned nor rendered. -/
theorem gaze_distance_gate_witness :
    (determine_center_object 1 2 20 20 [⟨5, 10, 10, 5, 5⟩]).1 ≠ some 0
    ∧ 0 ∉ (determine_center_object 1 2 20 20 [⟨5, 10, 10, 5, 5⟩]).2 :=
  gaze_distance_gate.1 1 2 20 20 [⟨5, 10, 10, 5, 5⟩] 0 (by decide)
    (Or.inr (by norm_num))

/-- `GazeGraspAction._grasp` (grip_actions.py lines 467-504).  `center`
is the result of `determine_center_object` (index into `scene_obj_ids`
and object position).  If no centered object was found, return with no
calls.  Otherwise the code computes `to_target = ‖ee_pos − pos‖` (held in
`ee_pos`/`pos` here; the value is never compared against anything) and
unconditionally snaps to the object with the fixed `rel_pos (0.1,0,0)`
and `keep_T = translation (0.1,0,0)`, then returns; the marker-snapping
block after the unconditional `return` is dead code and is not part of
the behaviour. -/
def gaze_grasp (center : Option (ℕ × Vec3)) (scene_obj_ids : List ℤ)
    (ee_pos : Vec3) (grasp_thresh_dist : ℚ) : List Call :=
  match center with
  | none => []
  | some (center_obj_idx, _center_object_pos) =>
    [Call.snapToObj (scene_obj_ids.getD center_obj_idx 0)
      ⟨1/10, 0, 0⟩ ⟨1/10, 0, 0⟩]

/-- C10: gaze grasp attaches unconditionally once a centered candidate is
found.  With a candidate it commits exactly one `snap_to_obj` on that
candidate with frame `rel_pos (0.1,0,0)` and `keep_T` translation
`(0.1,0,0)`; with none it does nothing; `snap_to_marker` and
`open_gripper` are never invoked; and the emitted calls do not depend on
the end-effector position or on `grasp_thresh_dist` (the
end-effector-to-object distance is computed but never compared). -/
theorem gaze_grasp_unconditional :
    ∀ (center : Option (ℕ × Vec3)) (ids : List ℤ) (ee : Vec3) (th : ℚ),
      (∀ (idx : ℕ) (pos : Vec3), center = some (idx, pos) →
        gaze_grasp center ids ee th =
          [Call.snapToObj (ids.getD idx 0) ⟨1/10, 0, 0⟩ ⟨1/10, 0, 0⟩])
      ∧ (center = none → gaze_grasp center ids ee th = [])
      ∧ (∀ name : String,
          Call.snapToMarker name ∉ gaze_grasp center ids ee th)
      ∧ Call.openGripper ∉ gaze_grasp center ids ee th
      ∧ (∀ (ee' : Vec3) (th' : ℚ),
          gaze_grasp center ids ee th = gaze_grasp center ids ee' th') := by
  intro center ids ee th
  refine ⟨?_, ?_, ?_, ?_, ?_⟩
  · intro idx pos h
    subst h
    rfl
  · intro h
    subst h
    rfl
  · intro name h
    cases center with
    | none => exact absurd h (by simp [gaze_grasp])
    | some p =>
      obtain ⟨i, v⟩ := p
      simp [gaze_grasp] at h
  · cases center with
    | none => simp [gaze_grasp]
    | some p =>
      obtain ⟨i, v⟩ := p
      simp [gaze_grasp]
  · intro ee' th'
    cases center with
    | none => rfl
    | some p => rfl

/-- Witness for `gaze_grasp_unconditional` at a concrete centered
candidate: index 0 of `scene_obj_ids = [42]` is snapped with the fixed
frame. -/
theorem gaze_grasp_unconditional_witness :
    gaze_grasp (some (0, ⟨0, 0, 0⟩)) [42] ⟨9, 9, 9⟩ (1/10) =
      [Call.snapToObj 42 ⟨1/10, 0, 0⟩ ⟨1/10, 0, 0⟩] :=
  (gaze_grasp_unconditional (some (0, ⟨0, 0, 0⟩)) [42] ⟨9, 9, 9⟩
    (1/10)).1 0 ⟨0, 0, 0⟩ rfl

/-- Object translations held by the simulator's rigid object manager,
keyed by object id. -/
def SimTranslations := ℤ → Vec3

/-- Modelled from the spec: `internal_step(0)` is a zero-time step — "a
pose-only step that updates transforms and sensor state without
integrating dynamics" (`RearrangeSim.internal_step`, not under src/); it
leaves rigid-object translations unchanged. -/
def internal_step0 (st : SimTranslations) : SimTranslations := st

/-- The state effect of `GazeGraspAction.get_grasp_object_mask`
(grip_actions.py lines 363-408) on object translations: save the
candidate's translation, sink it to `(0, -15, 0)` beneath the floor,
zero-time step, render (no state effect), restore the saved translation,
zero-time step. -/
def grasp_mask_state (st : SimTranslations) (abs_obj_idx : ℤ) :
    SimTranslations :=
  let orig_target_obj_trans := st abs_obj_idx
  let sunk := Function.update st abs_obj_idx ⟨0, -15, 0⟩
  let stepped := internal_step0 sunk
  let restored := Function.update stepped abs_obj_idx orig_target_obj_trans
  internal_step0 restored

/-- C6: sink-and-restore round trip.  After save, sink, zero-time step,
render, restore, zero-time step, every object's translation — the
sunk candidate's included — equals the originally saved translation
exactly. -/
theorem sink_restore_roundtrip :
    ∀ (st : SimTranslations) (abs_obj_idx : ℤ),
      grasp_mask_state st abs_obj_idx = st := by
  intro st abs_obj_idx
  funext objId
  unfold grasp_mask_state internal_step0
  by_cases h : objId = abs_obj_idx
  · subst h
    simp [Function.update]
  · simp [Function.update, h]

/-- numpy's cast of a nonnegative float to `uint8` (`np.uint8(x)`):
truncate toward zero, then wrap modulo 256.  Only nonnegative inputs
arise here (`np.abs(...) * 255`). -/
def np_uint8 (q : ℚ) : ℕ :=
  (⌊q⌋).toNat % 256

/-- One pixel of the pre-denoise binary mask of
`GazeGraspAction.get_grasp_object_mask` (grip_actions.py lines 410-412):
`abs_diff = np.uint8(np.abs(depth_img - depth_img_no_target_obj) * 255)`
followed by `abs_diff[abs_diff > 0] = 255`. -/
def mask_pixel (d1 d2 : ℚ) : ℕ :=
  let v := np_uint8 (|d1 - d2| * 255)
  if 0 < v then 255 else v

/-- The 5×5 window of offsets sampled by `cv2.blur(abs_diff, (5, 5))`. -/
def window25 : List (ℤ × ℤ) :=
  [(-2, -2), (-2, -1), (-2, 0), (-2, 1), (-2, 2),
   (-1, -2), (-1, -1), (-1, 0), (-1, 1), (-1, 2),
   (0, -2), (0, -1), (0, 0), (0, 1), (0, 2),
   (1, -2), (1, -1), (1, 0), (1, 1), (1, 2),
   (2, -2), (2, -1), (2, 0), (2, 1), (2, 2)]

/-- Sum of the mask values in the 5×5 window centred at `(i, j)`.  The
image is a function on the whole grid: border extension is folded into
`img`. -/
def blur_sum (img : ℤ → ℤ → ℕ) (i j : ℤ) : ℕ :=
  (window25.map fun d => img (i + d.1) (j + d.2)).sum

/-- `cv2.blur` with a 5×5 normalised box kernel at `(i, j)`: the window
mean, rounded to the nearest integer (halves up), as OpenCV's fixed-point
filtering does on `uint8` data. -/
def blur5 (img : ℤ → ℤ → ℕ) (i j : ℤ) : ℕ :=
  (2 * blur_sum img i j + 25) / 50

/-- One pixel of the denoised mask (lines 415-416):
`abs_diff_denoised = cv2.blur(abs_diff, (5, 5))` followed by
`abs_diff_denoised[abs_diff_denoised < 255] = 0` — the strict
all-or-nothing re-binarisation. -/
def denoise_pixel (img : ℤ → ℤ → ℕ) (i j : ℤ) : ℕ :=
  if blur5 img i j < 255 then 0 else blur5 img i j

lemma sum_indicator_of_not_mem (c : ℤ × ℤ) :
    ∀ l : List (ℤ × ℤ), c ∉ l →
      (l.map fun d => if d = c then (255 : ℕ) else 0).sum = 0 := by
  intro l
  induction l with
  | nil => intro _; rfl
  | cons a l ih =>
    intro h
    have hac : a ≠ c := fun hac => h (by rw [← hac]; exact List.mem_cons_self a l)
    rw [List.map_cons, List.sum_cons, if_neg hac,
      ih (fun hm => h (List.mem_cons_of_mem a hm))]

lemma sum_indicator_le (c : ℤ × ℤ) :
    ∀ l : List (ℤ × ℤ), l.Nodup →
      (l.map fun d => if d = c then (255 : ℕ) else 0).sum ≤ 255 := by
  intro l
  induction l with
  | nil => intro _; simp
  | cons a l ih =>
    intro hnd
    rw [List.map_cons, List.sum_cons]
    by_cases hac : a = c
    · subst hac
      rw [if_pos rfl, sum_indicator_of_not_mem a l (List.nodup_cons.1 hnd).1]
    · rw [if_neg hac, Nat.zero_add]
      exact ih (List.nodup_cons.1 hnd).2

lemma blur_sum_isolated_le (img : ℤ → ℤ → ℕ) (pi pj : ℤ)
    (hp : img pi pj = 255)
    (hz : ∀ a b : ℤ, (a, b) ≠ (pi, pj) → img a b = 0) :
    ∀ i j : ℤ, blur_sum img i j ≤ 255 := by
  intro i j
  unfold blur_sum
  have hle : (window25.map fun d => img (i + d.1) (j + d.2)).sum ≤
      (window25.map fun d => if d = (pi - i, pj - j) then (255 : ℕ)
        else 0).sum := by
    apply List.sum_le_sum
    intro d _
    by_cases hd : (i + d.1, j + d.2) = (pi, pj)
    · have h1 : d.1 = pi - i := by
        have := congrArg Prod.fst hd
        simp at this
        omega
      have h2 : d.2 = pj - j := by
        have := congrArg Prod.snd hd
        simp at this
        omega
      have hdc : d = (pi - i, pj - j) := Prod.ext h1 h2
      rw [if_pos hdc]
      have heq : img (i + d.1) (j + d.2) = img pi pj := by
        rw [h1, h2, show i + (pi - i) = pi by ring,
          show j + (pj - j) = pj by ring]
      rw [heq, hp]
    · rw [hz (i + d.1) (j + d.2) hd]
      exact Nat.zero_le _
  exact le_trans hle (sum_indicator_le (pi - i, pj - j) window25 (by decide))

/-- Denoise removes an isolated single-pixel difference: if exactly one
pixel of the mask is nonzero (value 255), the denoised mask is
identically zero. -/
lemma denoise_removes_isolated (img : ℤ → ℤ → ℕ) (pi pj : ℤ)
    (hp : img pi pj = 255)
    (hz : ∀ a b : ℤ, (a, b) ≠ (pi, pj) → img a b = 0) :
    ∀ i j : ℤ, denoise_pixel img i j = 0 := by
  intro i j
  have hs := blur_sum_isolated_le img pi pj hp hz i j
  have hb : blur5 img i j ≤ 10 := by
    unfold blur5
    calc (2 * blur_sum img i j + 25) / 50 ≤ (2 * 255 + 25) / 50 :=
          Nat.div_le_div_right (by omega)
      _ = 10 := by norm_num
  unfold denoise_pixel
  rw [if_pos (by omega)]

/-- C5 counterexample: the claim says a pixel is marked iff the two depth
values differ; but for depth values 1/1000 and 0 the images differ while
the mask pixel is 0, because `np.uint8(|diff| * 255)` truncates 51/200
to 0. -/
theorem mask_small_diff_counterexample :
    |(1/1000 : ℚ) - 0| > 0 ∧ mask_pixel (1/1000) 0 = 0 := by
  constructor
  · norm_num
  · have habs : |(1/1000 : ℚ) - 0| * 255 = 51/200 := by
      rw [sub_zero, abs_of_pos (show (0:ℚ) < 1/1000 by norm_num)]
      norm_num
    have hfloor : ⌊(51/200 : ℚ)⌋ = 0 := by
      rw [Int.floor_eq_zero_iff, Set.mem_Ico]
      constructor <;> norm_num
    unfold mask_pixel np_uint8
    rw [habs, hfloor]
    rfl

/-- C5 (amended): the pre-denoise mask marks a pixel (value 255) exactly
when the absolute depth difference scaled by 255 and cast to uint8
(truncated, wrapped modulo 256) is nonzero — in particular a positive
difference smaller than 1/255 is NOT marked, and a difference of exactly
256/255 (whose scaled value wraps to 0) is not marked either; and the
denoise pass (5×5 box blur, then zeroing everything below 255) removes
isolated single-pixel differences. -/
theorem mask_denoise_characterization :
    (∀ d1 d2 : ℚ, mask_pixel d1 d2 ≠ 0 ↔ np_uint8 (|d1 - d2| * 255) ≠ 0)
    ∧ (∀ d1 d2 : ℚ, |d1 - d2| < 1/255 → mask_pixel d1 d2 = 0)
    ∧ mask_pixel (256/255) 0 = 0
    ∧ (∀ (img : ℤ → ℤ → ℕ) (pi pj : ℤ), img pi pj = 255 →
        (∀ a b : ℤ, (a, b) ≠ (pi, pj) → img a b = 0) →
        ∀ i j : ℤ, denoise_pixel img i j = 0) := by
  refine ⟨?_, ?_, ?_, denoise_removes_isolated⟩
  · intro d1 d2
    unfold mask_pixel
    by_cases h : 0 < np_uint8 (|d1 - d2| * 255)
    · rw [if_pos h]
      constructor
      · intro _; omega
      · intro _; omega
    · rw [if_neg h]
  · intro d1 d2 hlt
    have habs : (0 : ℚ) ≤ |d1 - d2| := abs_nonneg _
    have h255 : |d1 - d2| * 255 < 1 := by
      have := mul_lt_mul_of_pos_right hlt (show (0:ℚ) < 255 by norm_num)
      calc |d1 - d2| * 255 < 1/255 * 255 := this
        _ = 1 := by norm_num
    have hfloor : ⌊|d1 - d2| * 255⌋ = 0 := by
      rw [Int.floor_eq_zero_iff]
      exact ⟨by positivity, h255⟩
    unfold mask_pixel np_uint8
    rw [hfloor]
    rfl
  · have habs : |(256/255 : ℚ) - 0| * 255 = 256 := by
      rw [sub_zero, abs_of_pos (show (0:ℚ) < 256/255 by norm_num)]
      norm_num
    have hfloor : ⌊(256 : ℚ)⌋ = 256 := by
      rw [show (256 : ℚ) = ((256 : ℤ) : ℚ) by norm_num, Int.floor_intCast]
    unfold mask_pixel np_uint8
    rw [habs, hfloor]
    rfl

/-- Witness for `mask_denoise_characterization`: a depth difference of
1/2000 is not marked, and an image whose sole nonzero pixel is 255 at
the origin denoises to zero at the origin. -/
theorem mask_denoise_characterization_witness :
    mask_pixel (1/2000) 0 = 0
    ∧ denoise_pixel (fun a b => if (a, b) = ((0 : ℤ), (0 : ℤ)) then 255
        else 0) 0 0 = 0 :=
  ⟨mask_denoise_characterization.2.1 (1/2000) 0
     (by rw [sub_zero, abs_of_pos (show (0:ℚ) < 1/2000 by norm_num)]
         norm_num),
   mask_denoise_characterization.2.2.2
     (fun a b => if (a, b) = ((0 : ℤ), (0 : ℤ)) then 255 else 0) 0 0
     rfl
     (fun a b h => if_neg h) 0 0⟩

end GripActions
